import Mathlib

/-!
Verification of the libflexkube core against its natural-language
specification.  The Go source is shallowly embedded: pure helpers become
Lean functions, fallible code returns `Except String`, and code that talks
to external daemons is modelled by explicit oracles (environments) whose
answers are parameters, together with explicit traces of the calls issued.
-/

set_option maxHeartbeats 1000000

namespace Flexkube

/-! ## Common error type: Go errors are modelled by their message strings. -/

abbrev Err := String

deriving instance DecidableEq for Except

/-! ## internal/util helpers.

Modelled from the spec: the `internal/util` package is not part of the
provided sources; the spec (design notes) describes its merge helpers as
picking "the first non-empty of a short ordered list". -/

/-- Go `PickString(values ...string)`: returns the first non-empty string of the
list, or the empty string when all are empty. -/
def pickString : List String → String
| [] => ""
| v :: vs => if v = "" then pickString vs else v

/-! ## Lexicographic ordering on strings and sorting.

Go's `sort.Strings` sorts a string slice ascending by the built-in `<`
operator, which compares lexicographically.  We embed the comparison as a
structurally recursive boolean predicate on the character lists so that it
is executable and kernel-reducible, and embed the sort as insertion sort:
because the order below is total, transitive and antisymmetric, the sorted
permutation of a list is unique, so any correct sort (Go's introsort, our
insertion sort) produces the same list. -/

/-- Lexicographic less-or-equal on character lists (by code point). -/
def charListLe : List Char → List Char → Bool
| [], _ => true
| _ :: _, [] => false
| a :: as, b :: bs =>
  if a.toNat < b.toNat then true
  else if b.toNat < a.toNat then false
  else charListLe as bs

/-- Lexicographic less-or-equal on strings. -/
def strLe (a b : String) : Bool := charListLe a.data b.data

/-- Insert a string into a (sorted) list, keeping it sorted. -/
def insertSorted (x : String) : List String → List String
| [] => [x]
| y :: ys => if strLe x y then x :: y :: ys else y :: insertSorted x ys

/-- Go `sort.Strings`: sort a list of strings ascending (insertion sort). -/
def sortStrings : List String → List String
| [] => []
| x :: xs => insertSorted x (sortStrings xs)

theorem charListLe_total (a b : List Char) : charListLe a b = true ∨ charListLe b a = true := by
  induction a generalizing b with
  | nil => left; rfl
  | cons x xs ih =>
    cases b with
    | nil => right; rfl
    | cons y ys =>
      by_cases hxy : x.toNat < y.toNat
      · left; simp [charListLe, hxy]
      · by_cases hyx : y.toNat < x.toNat
        · right; simp [charListLe, hyx]
        · rcases ih ys with h | h
          · left; simp [charListLe, hxy, hyx, h]
          · right; simp [charListLe, hxy, hyx, h]

theorem insertSorted_perm (x : String) (l : List String) :
    List.Perm (insertSorted x l) (x :: l) := by
  induction l with
  | nil => simp [insertSorted]
  | cons y ys ih =>
    by_cases h : strLe x y = true
    · simp [insertSorted, h]
    · simp only [insertSorted, h, if_neg, if_false]
      exact List.Perm.trans (List.Perm.cons y ih) (List.Perm.swap x y ys)

theorem sortStrings_perm (l : List String) : List.Perm (sortStrings l) l := by
  induction l with
  | nil => rfl
  | cons x xs ih =>
    exact List.Perm.trans (insertSorted_perm x (sortStrings xs)) (List.Perm.cons x ih)

/-- Sortedness predicate used throughout: pairwise `strLe`. -/
def SortedLe (l : List String) : Prop := List.Pairwise (fun a b => strLe a b = true) l

theorem charListLe_trans {a b c : List Char}
    (hab : charListLe a b = true) (hbc : charListLe b c = true) :
    charListLe a c = true := by
  induction a generalizing b c with
  | nil => rfl
  | cons x xs ih =>
    cases b with
    | nil => simp [charListLe] at hab
    | cons y ys =>
      cases c with
      | nil => simp [charListLe] at hbc
      | cons z zs =>
        simp only [charListLe] at hab hbc ⊢
        by_cases hxy : x.toNat < y.toNat
        · by_cases hyz : y.toNat < z.toNat
          · have hxz : x.toNat < z.toNat := Nat.lt_trans hxy hyz
            simp [hxz]
          · by_cases hzy : z.toNat < y.toNat
            · simp [hyz, hzy] at hbc
            · have hyze : y.toNat = z.toNat := Nat.le_antisymm (Nat.le_of_not_lt hzy) (Nat.le_of_not_lt hyz)
              have hxz : x.toNat < z.toNat := hyze ▸ hxy
              simp [hxz]
        · by_cases hyx : y.toNat < x.toNat
          · simp [hxy, hyx] at hab
          · have hxye : x.toNat = y.toNat := Nat.le_antisymm (Nat.le_of_not_lt hyx) (Nat.le_of_not_lt hxy)
            by_cases hyz : y.toNat < z.toNat
            · have hxz : x.toNat < z.toNat := hxye ▸ hyz
              simp [hxz]
            · by_cases hzy : z.toNat < y.toNat
              · simp [hyz, hzy] at hbc
              · have hxz : ¬ x.toNat < z.toNat := by
                  intro h
                  exact hyz (hxye ▸ h)
                have hzx : ¬ z.toNat < x.toNat := by
                  intro h
                  exact hzy (hxye ▸ h)
                simp only [hxy, hyx, if_neg, if_false] at hab
                simp only [hyz, hzy, if_neg, if_false] at hbc
                simp [hxz, hzx, ih hab hbc]

theorem strLe_total (a b : String) : strLe a b = true ∨ strLe b a = true :=
  charListLe_total a.data b.data

theorem strLe_trans {a b c : String} (hab : strLe a b = true) (hbc : strLe b c = true) :
    strLe a c = true :=
  charListLe_trans hab hbc

theorem insertSorted_sorted (x : String) (l : List String) (h : SortedLe l) :
    SortedLe (insertSorted x l) := by
  induction l with
  | nil => simp [insertSorted, SortedLe]
  | cons y ys ih =>
    rw [SortedLe, List.pairwise_cons] at h
    obtain ⟨hy, hys⟩ := h
    by_cases hxy : strLe x y = true
    · rw [SortedLe, insertSorted, if_pos hxy, List.pairwise_cons]
      refine ⟨?_, List.pairwise_cons.mpr ⟨hy, hys⟩⟩
      intro b hb
      rw [List.mem_cons] at hb
      rcases hb with hb | hb
      · exact hb ▸ hxy
      · exact strLe_trans hxy (hy b hb)
    · have hyx : strLe y x = true := by
        rcases strLe_total x y with htot | htot
        · exact absurd htot hxy
        · exact htot
      rw [SortedLe, insertSorted, if_neg hxy, List.pairwise_cons]
      refine ⟨?_, ih hys⟩
      intro b hb
      have hbm : b ∈ x :: ys := (insertSorted_perm x ys).mem_iff.mp hb
      rw [List.mem_cons] at hbm
      rcases hbm with hbm | hbm
      · exact hbm ▸ hyx
      · exact hy b hbm

theorem sortStrings_sorted (l : List String) : SortedLe (sortStrings l) := by
  induction l with
  | nil => exact List.Pairwise.nil
  | cons x xs ih => exact insertSorted_sorted x (sortStrings xs) ih

/-! ## cmd-level state file reading (`readYamlFile`). -/

/-- The observable state of a file on disk, as seen by `readYamlFile`:
either the file is missing, or reading it fails with an error, or it has
some content. -/
inductive FileState where
| missing : FileState
| unreadable (e : Err) : FileState
| present (content : String) : FileState
deriving DecidableEq

/-- Go `readYamlFile`: returns empty bytes when the file does not exist,
propagates read errors, normalizes the exact content `"{}\n"` to empty
bytes, and otherwise returns the content unchanged. -/
def readYamlFile : FileState → Except Err String
| .missing => .ok ""
| .unreadable e => .error e
| .present c => if c = "{}\n" then .ok "" else .ok c

/-! ## Helm release retry helper (`retryOnEtcdError`). -/

/-- Does the error message mention the etcd server?  Embeds
`strings.Contains(err.Error(), "etcdserver:")`. -/
def isEtcdserverError (e : Err) : Bool :=
  decide (List.IsInfix "etcdserver:".data e.data)

/-- The loop body of `retryOnEtcdError`.  The successive invocations of the
operation `f` are indexed: `f i` is the outcome of invocation number `i`
(`none` = success).  Returns the final error value together with the number
of invocations issued.  `i` is the next invocation index, `fuel` the number
of remaining loop iterations, `last` the error from the previous iteration. -/
def retryRun (f : Nat → Option Err) : Nat → Nat → Option Err → Option Err × Nat
| _, 0, last => (last, 0)
| i, fuel + 1, _ =>
  match f i with
  | none => (none, 1)
  | some e =>
    if isEtcdserverError e then
      let r := retryRun f (i + 1) fuel (some e)
      (r.1, r.2 + 1)
    else
      (some e, 1)

/-- Go `retryOnEtcdError(f)`: run `f` up to 3 times, retrying only on errors
mentioning `etcdserver:`; the result is the error returned (or `none`). -/
def retryOnEtcdError (f : Nat → Option Err) : Option Err :=
  (retryRun f 0 3 none).1

/-- Number of times `retryOnEtcdError(f)` invokes `f`. -/
def retryCount (f : Nat → Option Err) : Nat :=
  (retryRun f 0 3 none).2

/-! ## Docker image name normalization.

Modelled from the spec: `sanitizeImageName` lives in
`pkg/container/runtime/docker/docker.go`, which is not among the provided
sources (only its tests are).  The spec says an image name without a tag is
normalized to `:latest`; carrying a tag is observable as the reference
containing a colon. -/

/-- Does the image reference carry a tag (contain a colon)? -/
def hasImageTag (image : String) : Bool := image.data.contains ':'

/-- Go `sanitizeImageName`: append `:latest` when the reference carries no
tag, otherwise return it unchanged. -/
def sanitizeImageName (image : String) : String :=
  if hasImageTag image then image else image ++ ":latest"

/-! ## pkg/container: data model (`pkg/container/types`). -/

/-- Go `types.PortMap`. -/
structure PortMap where
  ip : String
  port : Int
  protocol : String
deriving DecidableEq

/-- Go `types.Mount`. -/
structure Mount where
  source : String
  target : String
deriving DecidableEq

/-- Go `types.ContainerConfig`. -/
structure ContainerConfig where
  name : String
  image : String
  args : List String
  entrypoint : List String
  ports : List PortMap
  mounts : List Mount
deriving DecidableEq

/-- Go `types.ContainerStatus`. -/
structure ContainerStatus where
  image : String
  id : String
  name : String
  status : String
deriving DecidableEq

/-- Go `docker.Config` (daemon URL). -/
structure DockerConfig where
  host : String
deriving DecidableEq

/-- Go `container.RuntimeConfig`: collection of runtime configurations; only
Docker exists. -/
structure RuntimeConfig where
  docker : Option DockerConfig
deriving DecidableEq

/-- Go `container.Container`: the public, serializable container object. -/
structure Container where
  config : ContainerConfig
  status : Option ContainerStatus
  runtime : RuntimeConfig
deriving DecidableEq

/-- Go `containerInstance`: a created container; its status is always present. -/
structure ContainerInstance where
  config : ContainerConfig
  runtime : RuntimeConfig
  status : ContainerStatus
deriving DecidableEq

/-! ## pkg/container: the runtime daemon as an oracle.

Calls to the container runtime daemon are side effects; we model the daemon
by an oracle giving each call's outcome, and every operation additionally
returns the exact list of daemon calls it issued. -/

/-- One call issued to the container runtime daemon. -/
inductive RuntimeCall where
| create (name : String)
| start (id : String)
| stop (id : String)
| delete (id : String)
| statusOf (id : String)
| readPath (id : String) (path : String)
| copyPath (id : String) (path : String)
| statPath (id : String) (path : String)
deriving DecidableEq

/-- Outcomes of runtime daemon calls. -/
structure RuntimeOracle where
  createR : ContainerConfig → Except Err String
  startR : String → Except Err Unit
  stopR : String → Except Err Unit
  deleteR : String → Except Err Unit
  statusR : String → Except Err ContainerStatus
  readR : String → String → Except Err String
  copyR : String → String → String → Except Err Unit
  statR : String → String → Except Err (Option Nat)

/-- A result is an error. -/
def IsErr {α : Type} (r : Except Err α) : Prop := ∃ e, r = Except.error e

/-! ## pkg/container: validation and instantiation. -/

/-- Go `Container.Validate`: name, image and the Docker runtime entry are
required. -/
def Container.validate (c : Container) : Except Err Unit :=
  if c.config.name = "" then Except.error "name must be set"
  else if c.config.image = "" then Except.error "image must be set"
  else
    match c.runtime.docker with
    | none => Except.error "docker runtime must be set"
    | some _ => Except.ok ()

/-- Modelled from the spec: `selectRuntime` builds the Docker client from
the runtime configuration (`docker.Config.New`, whose source file is not
among the provided sources).  Per the spec, validation failures are
"reported before any side effect" and client construction contacts no
daemon (the docker tests build clients offline), so it is modelled as
always succeeding and issuing no runtime calls. -/
def selectRuntime (_ : RuntimeConfig) : Except Err Unit := Except.ok ()

/-- Go `container.New`: validate the configuration and select the runtime.
It takes no `RuntimeOracle`, so by construction it issues no daemon call. -/
def newContainer (c : Container) : Except Err Container :=
  match c.validate with
  | Except.error e => Except.error ("container configuration validation failed: " ++ e)
  | Except.ok _ =>
    match selectRuntime c.runtime with
    | Except.error e => Except.error ("unable to determine container runtime: " ++ e)
    | Except.ok _ => Except.ok c

/-- Go `container.FromStatus`: build an instance from a restored status;
rejects a missing status and a status without ID. -/
def fromStatus (c : Container) : Except Err ContainerInstance :=
  match c.status with
  | none => Except.error "cant create container instance from empty status"
  | some s =>
    if s.id = "" then Except.error "cant create container instance from status without id"
    else Except.ok ⟨c.config, c.runtime, s⟩

/-- Go `Container.ToInstance`: `New` followed by `FromStatus`. -/
def Container.toInstance (c : Container) : Except Err ContainerInstance :=
  match newContainer c with
  | Except.error e => Except.error e
  | Except.ok nc => fromStatus nc

/-! ## pkg/container: instance-level operations on `Container`.

Each operation returns its result, the updated `Container`, and the list of
runtime daemon calls issued, in order. -/

/-- Go `containerInstance.updateStatus`: query the daemon for the status and
store it in the exported struct. -/
def instUpdateStatus (rt : RuntimeOracle) (ci : ContainerInstance) (c : Container) :
    Except Err Unit × Container × List RuntimeCall :=
  match rt.statusR ci.status.id with
  | Except.error e =>
    (Except.error ("getting status for container failed: " ++ e), c, [RuntimeCall.statusOf ci.status.id])
  | Except.ok s => (Except.ok (), { c with status := some s }, [RuntimeCall.statusOf ci.status.id])

/-- Go `Container.UpdateStatus`. -/
def Container.updateStatus (rt : RuntimeOracle) (c : Container) :
    Except Err Unit × Container × List RuntimeCall :=
  match c.toInstance with
  | Except.error e => (Except.error e, c, [])
  | Except.ok ci => instUpdateStatus rt ci c

/-- Go `Container.Start`: start the container, then refresh its status. -/
def Container.start (rt : RuntimeOracle) (c : Container) :
    Except Err Unit × Container × List RuntimeCall :=
  match c.toInstance with
  | Except.error e => (Except.error e, c, [])
  | Except.ok ci =>
    match rt.startR ci.status.id with
    | Except.error e => (Except.error e, c, [RuntimeCall.start ci.status.id])
    | Except.ok _ =>
      let r := instUpdateStatus rt ci c
      (r.1, r.2.1, RuntimeCall.start ci.status.id :: r.2.2)

/-- Go `Container.Stop`: stop the container, then refresh its status. -/
def Container.stop (rt : RuntimeOracle) (c : Container) :
    Except Err Unit × Container × List RuntimeCall :=
  match c.toInstance with
  | Except.error e => (Except.error e, c, [])
  | Except.ok ci =>
    match rt.stopR ci.status.id with
    | Except.error e => (Except.error e, c, [RuntimeCall.stop ci.status.id])
    | Except.ok _ =>
      let r := instUpdateStatus rt ci c
      (r.1, r.2.1, RuntimeCall.stop ci.status.id :: r.2.2)

/-- Go `Container.Delete`: delete the container; on success clear the stored
status (`c.Status = nil`). -/
def Container.delete (rt : RuntimeOracle) (c : Container) :
    Except Err Unit × Container × List RuntimeCall :=
  match c.toInstance with
  | Except.error e => (Except.error e, c, [])
  | Except.ok ci =>
    match rt.deleteR ci.status.id with
    | Except.error e => (Except.error e, c, [RuntimeCall.delete ci.status.id])
    | Except.ok _ => (Except.ok (), { c with status := none }, [RuntimeCall.delete ci.status.id])

/-- Go `Container.Read`: read a path from the container. -/
def Container.read (rt : RuntimeOracle) (c : Container) (srcPath : String) :
    Except Err String × List RuntimeCall :=
  match c.toInstance with
  | Except.error e => (Except.error e, [])
  | Except.ok ci => (rt.readR ci.status.id srcPath, [RuntimeCall.readPath ci.status.id srcPath])

/-- Go `Container.Copy`: copy content to a path in the container. -/
def Container.copy (rt : RuntimeOracle) (c : Container) (dstPath : String) (content : String) :
    Except Err Unit × List RuntimeCall :=
  match c.toInstance with
  | Except.error e => (Except.error e, [])
  | Except.ok ci => (rt.copyR ci.status.id dstPath content, [RuntimeCall.copyPath ci.status.id dstPath])

/-- Go `Container.Stat`: stat a path in the container. -/
def Container.stat (rt : RuntimeOracle) (c : Container) (path : String) :
    Except Err (Option Nat) × List RuntimeCall :=
  match c.toInstance with
  | Except.error e => (Except.error e, [])
  | Except.ok ci => (rt.statR ci.status.id path, [RuntimeCall.statPath ci.status.id path])

/-! ## pkg/etcd: cluster configuration and member propagation. -/

/-- A host specification.  Only the SSH-config slot matters to the claims;
the concrete `ssh.Config` stays abstract here and represented by its serialized
form. -/
structure HostCfg where
  sshConfig : Option String
deriving DecidableEq

/-- Modelled from the spec: `host.BuildConfig` (package `pkg/host`, not
among the provided sources) merges a host config with defaults; per the
spec, a resource-level SSH config "propagates into every member's host
spec when the member did not set its own". -/
def buildHostConfig (h : HostCfg) (defaults : HostCfg) : HostCfg :=
  { sshConfig := match h.sshConfig with
    | some s => some s
    | none => defaults.sshConfig }

/-- Go `etcd.Member` (user-facing), restricted to the fields that
`Cluster.propagateMember` reads or writes (the full struct lives in
`pkg/etcd/member.go`, not among the provided sources). -/
structure EtcdMember where
  name : String
  image : String
  initialCluster : String
  peerCertAllowedCN : String
  caCertificate : String
  peerAddress : String
  host : HostCfg
  newCluster : Bool
deriving DecidableEq

/-- Go `etcd.Cluster`: user-facing etcd cluster configuration.  Go maps are
embedded as association lists; `state` holds the keys of the persisted
`ContainersState`. -/
structure EtcdCluster where
  image : String
  ssh : Option String
  caCertificate : String
  members : List (String × EtcdMember)
  state : List String

/-- The `--initial-cluster` entry built for one member entry:
`etcd-<key>=https://<peerAddress>:2380`. -/
def initialClusterEntry (p : String × EtcdMember) : String :=
  "etcd-" ++ p.1 ++ "=https://" ++ p.2.peerAddress ++ ":2380"

/-- The peer-cert-allowed-CN entry built for one member entry. -/
def peerCNEntry (p : String × EtcdMember) : String :=
  "etcd-" ++ p.1

/-- Go `Cluster.propagateMember`: fill the given member's empty fields with
cluster-level values and computed defaults. -/
def propagateMember (c : EtcdCluster) (i : String) (m : EtcdMember) : EtcdMember :=
  let initialClusterArr := sortStrings (c.members.map initialClusterEntry)
  let peerCertAllowedCNArr := sortStrings (c.members.map peerCNEntry)
  { m with
    name := pickString [m.name, "etcd-" ++ i]
    image := pickString [m.image, c.image]
    initialCluster := pickString [m.initialCluster, String.intercalate "," initialClusterArr]
    peerCertAllowedCN := pickString [m.peerCertAllowedCN, String.intercalate "," peerCertAllowedCNArr]
    caCertificate := pickString [m.caCertificate, c.caCertificate]
    host := buildHostConfig m.host { sshConfig := c.ssh }
    newCluster := if c.state.length = 0 then true else m.newCluster }

/-! ## pkg/etcd: `Deploy` and the membership-update protocol.

The etcd client, the membership RPCs and the wrapped engine's `Deploy` are
side effects; we model their outcomes by an environment and record a trace
of the externally visible operations. -/

/-- Externally visible operations of one `cluster.Deploy` pass. -/
inductive EtcdEvent where
| memberRemove (key : String)
| memberAdd (key : String)
| containersDeploy
deriving DecidableEq

/-- Outcomes of the external calls made during `cluster.Deploy`:
building the etcd client, the per-member remove/add RPC sequences
(`member.remove` / `member.add`, whose bodies live in `pkg/etcd/member.go`,
not among the provided sources), and the wrapped `containers.Deploy`. -/
structure EtcdEnv where
  getClient : Except Err Unit
  removeRPC : String → Except Err Unit
  addRPC : String → Except Err Unit
  containersDeploy : Except Err Unit

/-- Go `cluster.membersToRemove`: keys present in the previous state but
absent from the desired state. -/
def membersToRemove (prev desired : List String) : List String :=
  prev.filter (fun k => !desired.contains k)

/-- Go `cluster.membersToAdd`: keys present in the desired state but absent
from the previous state. -/
def membersToAdd (prev desired : List String) : List String :=
  desired.filter (fun k => !prev.contains k)

/-- The removal loop of `cluster.updateMembers`: one `MemberRemove` RPC per
key, aborting (with a wrapped error) at the first failure. -/
def runRemovals (env : EtcdEnv) : List String → Except Err Unit × List EtcdEvent
| [] => (Except.ok (), [])
| k :: ks =>
  match env.removeRPC k with
  | Except.error e => (Except.error ("failed removing member: " ++ e), [EtcdEvent.memberRemove k])
  | Except.ok _ =>
    ((runRemovals env ks).1, EtcdEvent.memberRemove k :: (runRemovals env ks).2)

/-- The addition loop of `cluster.updateMembers`: one `MemberAdd` RPC per
key, aborting (with a wrapped error) at the first failure. -/
def runAdditions (env : EtcdEnv) : List String → Except Err Unit × List EtcdEvent
| [] => (Except.ok (), [])
| k :: ks =>
  match env.addRPC k with
  | Except.error e => (Except.error ("failed adding member: " ++ e), [EtcdEvent.memberAdd k])
  | Except.ok _ =>
    ((runAdditions env ks).1, EtcdEvent.memberAdd k :: (runAdditions env ks).2)

/-- Go `cluster.updateMembers`: all removals first, then all additions. -/
def updateMembers (env : EtcdEnv) (prev desired : List String) :
    Except Err Unit × List EtcdEvent :=
  match (runRemovals env (membersToRemove prev desired)).1 with
  | Except.error e => (Except.error e, (runRemovals env (membersToRemove prev desired)).2)
  | Except.ok _ =>
    ((runAdditions env (membersToAdd prev desired)).1,
      (runRemovals env (membersToRemove prev desired)).2
        ++ (runAdditions env (membersToAdd prev desired)).2)

/-- Go `cluster.Deploy`: when both the previous and the desired state are
non-empty, obtain the etcd client and update the membership before handing
over to the wrapped engine's `containers.Deploy`; otherwise (fresh install
or full teardown) deploy directly.  `prev` and `desired` are the key sets
of the engine's `PreviousState` and `DesiredState`. -/
def deployCluster (env : EtcdEnv) (prev desired : List String) :
    Except Err Unit × List EtcdEvent :=
  if prev.length ≠ 0 ∧ desired.length ≠ 0 then
    match env.getClient with
    | Except.error e => (Except.error ("failed getting etcd client: " ++ e), [])
    | Except.ok _ =>
      match (updateMembers env prev desired).1 with
      | Except.error e =>
        (Except.error ("failed to update members before deploying: " ++ e),
          (updateMembers env prev desired).2)
      | Except.ok _ =>
        (env.containersDeploy, (updateMembers env prev desired).2 ++ [EtcdEvent.containersDeploy])
  else (env.containersDeploy, [EtcdEvent.containersDeploy])

/-! ## pkg/container/runtime/docker: `Read`.

Modelled from the spec: `docker.Read` and `tarToFiles` live in
`pkg/container/runtime/docker/docker.go`, not among the provided sources
(only their tests are).  Per the spec, `read` takes a list of absolute
paths; a path the daemon reports as absent is omitted ("propagate as an
optional result, never an error"), a daemon error is surfaced, and the
returned stream is un-tarred (an invalid TAR stream is an error).  TAR
extraction itself is abstracted by a `parse` function. -/

/-- A file as returned by `docker.Read`. -/
structure DockerFile where
  path : String
  content : String
  mode : Nat
  user : String
  group : String
deriving DecidableEq

/-- What the daemon reports for one requested path: a runtime error, an
absent file, or a TAR stream. -/
inductive PathResult where
| rerror (e : Err)
| absent
| archive (stream : String)
deriving DecidableEq

/-- Go `docker.Read`: query the daemon for each path in order; skip absent
paths, surface daemon errors, un-tar streams via `parse` (surfacing TAR
errors) and stamp the requested path onto the extracted file. -/
def dockerRead (parse : String → Except Err DockerFile) (daemon : String → PathResult) :
    List String → Except Err (List DockerFile)
| [] => Except.ok []
| p :: ps =>
  match daemon p with
  | PathResult.rerror e => Except.error e
  | PathResult.absent => dockerRead parse daemon ps
  | PathResult.archive s =>
    match parse s with
    | Except.error e => Except.error e
    | Except.ok f =>
      match dockerRead parse daemon ps with
      | Except.error e => Except.error e
      | Except.ok fs => Except.ok ({ f with path := p } :: fs)

/-! ## Concrete sample inputs (used to evaluate the theorems below). -/

/-- A member that sets only its peer address. -/
def sampleMember : EtcdMember :=
  ⟨"", "", "", "", "", "10.0.0.2", ⟨none⟩, false⟩

/-- A two-member cluster configuration with empty persisted state. -/
def sampleCluster : EtcdCluster :=
  ⟨"img", none, "ca", [("b", { sampleMember with peerAddress := "10.0.0.3" }), ("a", sampleMember)], []⟩

/-- An environment where every external call succeeds. -/
def sampleEnvOk : EtcdEnv :=
  ⟨Except.ok (), fun _ => Except.ok (), fun _ => Except.ok (), Except.ok ()⟩

/-- An environment whose `MemberRemove` RPC fails. -/
def sampleEnvRemoveFail : EtcdEnv :=
  ⟨Except.ok (), fun _ => Except.error "boom", fun _ => Except.ok (), Except.ok ()⟩

/-- An environment where the etcd client cannot be built. -/
def sampleEnvClientFail : EtcdEnv :=
  ⟨Except.error "conn refused", fun _ => Except.ok (), fun _ => Except.ok (), Except.ok ()⟩

/-- The file extracted from the sample TAR stream. -/
def sampleFile : DockerFile := ⟨"", "foo\n", 420, "1000", "1000"⟩

/-- A TAR extractor that accepts exactly the stream `"goodtar"`. -/
def sampleParse : String → Except Err DockerFile :=
  fun s => if s = "goodtar" then Except.ok sampleFile else Except.error "bad tar"

/-- A daemon holding a file at `/a`, nothing at `/b`, and failing elsewhere. -/
def sampleDaemon : String → PathResult :=
  fun p =>
    if p = "/a" then PathResult.archive "goodtar"
    else if p = "/b" then PathResult.absent
    else PathResult.rerror "runtime"

/-- The status of the sample container. -/
def sampleStatus : ContainerStatus := ⟨"img:1", "X", "web", "running"⟩

/-- A valid container with a restored status. -/
def sampleContainer : Container :=
  ⟨⟨"web", "img:1", [], [], [], []⟩, some sampleStatus, ⟨some ⟨"unix:///var/run/docker.sock"⟩⟩⟩

/-- The instance corresponding to `sampleContainer`. -/
def sampleInstance : ContainerInstance :=
  ⟨sampleContainer.config, sampleContainer.runtime, sampleStatus⟩

/-- A runtime daemon oracle where every call succeeds. -/
def sampleRuntimeOk : RuntimeOracle :=
  ⟨fun _ => Except.ok "X", fun _ => Except.ok (), fun _ => Except.ok (), fun _ => Except.ok (),
   fun _ => Except.ok sampleStatus, fun _ _ => Except.ok "tar",
   fun _ _ _ => Except.ok (), fun _ _ => Except.ok none⟩

/-- A runtime daemon oracle whose delete call fails. -/
def sampleRuntimeDeleteFail : RuntimeOracle :=
  { sampleRuntimeOk with deleteR := fun _ => Except.error "no such container" }

/-! # Theorems -/

/-! ## C4: `readYamlFile` normalizes missing files and the empty document. -/

/-- C4: `readYamlFile` returns empty bytes without error both for a
missing state file and for a file holding exactly the document `"{}\n"`;
any other content that can be read is returned unchanged, so state and
user config can be concatenated textually. -/
theorem readYamlFile_spec :
    readYamlFile FileState.missing = Except.ok "" ∧
    readYamlFile (FileState.present "{}\n") = Except.ok "" ∧
    (∀ c : String, c ≠ "{}\n" → readYamlFile (FileState.present c) = Except.ok c) := by
  refine ⟨rfl, by decide, ?_⟩
  intro c hc
  simp [readYamlFile, hc]

/-- C4 witness: a non-empty state document is returned byte-for-byte. -/
theorem readYamlFile_spec_witness :
    readYamlFile (FileState.present "state: x\n") = Except.ok "state: x\n" :=
  readYamlFile_spec.2.2 "state: x\n" (by decide)

/-! ## C8: `sanitizeImageName` normalizes untagged references. -/

theorem hasImageTag_append_latest (img : String) : hasImageTag (img ++ ":latest") = true := by
  rw [hasImageTag, String.data_append]
  have h : (':' : Char) ∈ img.data ++ ":latest".data := by
    apply List.mem_append_right
    decide
  exact List.elem_eq_true_of_mem h

/-- C8: an untagged image reference gets `:latest` appended, a tagged one
is returned unchanged, and `sanitizeImageName` is idempotent. -/
theorem sanitizeImageName_spec :
    (∀ img : String, hasImageTag img = false → sanitizeImageName img = img ++ ":latest") ∧
    (∀ img : String, hasImageTag img = true → sanitizeImageName img = img) ∧
    (∀ img : String, sanitizeImageName (sanitizeImageName img) = sanitizeImageName img) := by
  refine ⟨?_, ?_, ?_⟩
  · intro img h
    simp [sanitizeImageName, h]
  · intro img h
    simp [sanitizeImageName, h]
  · intro img
    by_cases h : hasImageTag img = true
    · simp [sanitizeImageName, h]
    · rw [Bool.not_eq_true] at h
      have h1 : sanitizeImageName img = img ++ ":latest" := by simp [sanitizeImageName, h]
      rw [h1]
      simp [sanitizeImageName, hasImageTag_append_latest]

/-- C8 witness: `sanitizeImageName` evaluated on the test vectors of the
docker test suite. -/
theorem sanitizeImageName_spec_witness :
    sanitizeImageName "foo" = "foo" ++ ":latest" ∧ sanitizeImageName "foo:v0.1.0" = "foo:v0.1.0" :=
  ⟨sanitizeImageName_spec.1 "foo" (by decide), sanitizeImageName_spec.2.1 "foo:v0.1.0" (by decide)⟩

/-! ## C6: `retryOnEtcdError` retries at most 3 times on etcd errors. -/

theorem retryRun_count_le (f : Nat → Option Err) (fuel : Nat) :
    ∀ i last, (retryRun f i fuel last).2 ≤ fuel := by
  induction fuel with
  | zero => intro i last; simp [retryRun]
  | succ n ih =>
    intro i last
    rw [retryRun]
    cases f i with
    | none => simp
    | some e =>
      by_cases he : isEtcdserverError e = true
      · simp only [he, if_pos]
        exact Nat.succ_le_succ (ih (i + 1) (some e))
      · rw [Bool.not_eq_true] at he
        simp [he]

theorem retryRun_step_none (f : Nat → Option Err) (i fuel : Nat) (last : Option Err)
    (h : f i = none) : retryRun f i (fuel + 1) last = (none, 1) := by
  rw [retryRun, h]

theorem retryRun_step_stop (f : Nat → Option Err) (i fuel : Nat) (last : Option Err) (e : Err)
    (h : f i = some e) (he : isEtcdserverError e = false) :
    retryRun f i (fuel + 1) last = (some e, 1) := by
  rw [retryRun, h]
  simp [he]

theorem retryRun_step_retry (f : Nat → Option Err) (i fuel : Nat) (last : Option Err) (e : Err)
    (h : f i = some e) (he : isEtcdserverError e = true) :
    retryRun f i (fuel + 1) last
      = ((retryRun f (i + 1) fuel (some e)).1, (retryRun f (i + 1) fuel (some e)).2 + 1) := by
  rw [retryRun, h]
  simp [he]

/-- C6: `retryOnEtcdError(f)` invokes `f` at most 3 times; it returns `none`
as soon as an invocation succeeds, stops immediately on an error not
mentioning `etcdserver:`, and after 3 failed etcd-server invocations
returns the last error. -/
theorem retryOnEtcdError_spec (f : Nat → Option Err) :
    retryCount f ≤ 3 ∧
    (∀ i, i < 3 → f i = none →
      (∀ j, j < i → ∃ e, f j = some e ∧ isEtcdserverError e = true) →
      retryOnEtcdError f = none ∧ retryCount f = i + 1) ∧
    (∀ i e, i < 3 → f i = some e → isEtcdserverError e = false →
      (∀ j, j < i → ∃ e2, f j = some e2 ∧ isEtcdserverError e2 = true) →
      retryOnEtcdError f = some e ∧ retryCount f = i + 1) ∧
    ((∀ j, j < 3 → ∃ e, f j = some e ∧ isEtcdserverError e = true) →
      retryOnEtcdError f = f 2 ∧ retryCount f = 3) := by
  refine ⟨retryRun_count_le f 3 0 none, ?_, ?_, ?_⟩
  · intro i hi h0 hearlier
    have hi3 : i = 0 ∨ i = 1 ∨ i = 2 := by omega
    rw [retryOnEtcdError, retryCount]
    rcases hi3 with rfl | rfl | rfl
    · rw [retryRun_step_none f 0 2 none h0]
      exact ⟨rfl, rfl⟩
    · obtain ⟨e0, he0, het0⟩ := hearlier 0 (by omega)
      rw [retryRun_step_retry f 0 2 none e0 he0 het0,
        retryRun_step_none f 1 1 (some e0) h0]
      exact ⟨rfl, rfl⟩
    · obtain ⟨e0, he0, het0⟩ := hearlier 0 (by omega)
      obtain ⟨e1, he1, het1⟩ := hearlier 1 (by omega)
      rw [retryRun_step_retry f 0 2 none e0 he0 het0,
        retryRun_step_retry f 1 1 (some e0) e1 he1 het1,
        retryRun_step_none f 2 0 (some e1) h0]
      exact ⟨rfl, rfl⟩
  · intro i e hi hie hnet hearlier
    have hi3 : i = 0 ∨ i = 1 ∨ i = 2 := by omega
    rw [retryOnEtcdError, retryCount]
    rcases hi3 with rfl | rfl | rfl
    · rw [retryRun_step_stop f 0 2 none e hie hnet]
      exact ⟨rfl, rfl⟩
    · obtain ⟨e0, he0, het0⟩ := hearlier 0 (by omega)
      rw [retryRun_step_retry f 0 2 none e0 he0 het0,
        retryRun_step_stop f 1 1 (some e0) e hie hnet]
      exact ⟨rfl, rfl⟩
    · obtain ⟨e0, he0, het0⟩ := hearlier 0 (by omega)
      obtain ⟨e1, he1, het1⟩ := hearlier 1 (by omega)
      rw [retryRun_step_retry f 0 2 none e0 he0 het0,
        retryRun_step_retry f 1 1 (some e0) e1 he1 het1,
        retryRun_step_stop f 2 0 (some e1) e hie hnet]
      exact ⟨rfl, rfl⟩
  · intro hall
    obtain ⟨e0, he0, het0⟩ := hall 0 (by omega)
    obtain ⟨e1, he1, het1⟩ := hall 1 (by omega)
    obtain ⟨e2, he2, het2⟩ := hall 2 (by omega)
    rw [retryOnEtcdError, retryCount,
      retryRun_step_retry f 0 2 none e0 he0 het0,
      retryRun_step_retry f 1 1 (some e0) e1 he1 het1,
      retryRun_step_retry f 2 0 (some e1) e2 he2 het2]
    simp [retryRun, he2]

/-- C6 witness: an operation failing persistently with an etcd-server error
is retried exactly 3 times and the last error surfaces. -/
theorem retryOnEtcdError_spec_witness :
    retryOnEtcdError (fun _ => some "etcdserver: busy") = some "etcdserver: busy" ∧
    retryCount (fun _ => some "etcdserver: busy") = 3 := by
  have h := (retryOnEtcdError_spec (fun _ => some "etcdserver: busy")).2.2.2
    (by intro j hj; exact ⟨"etcdserver: busy", rfl, by decide⟩)
  exact h

/-! ## C5: `container.New` / `Container.Validate` validation conditions. -/

theorem validate_isErr_iff (c : Container) :
    IsErr c.validate ↔ (c.config.name = "" ∨ c.config.image = "" ∨ c.runtime.docker = none) := by
  rw [Container.validate]
  by_cases h1 : c.config.name = ""
  · simp [h1, IsErr]
  · by_cases h2 : c.config.image = ""
    · simp [h1, h2, IsErr]
    · cases hd : c.runtime.docker with
      | none => simp [h1, h2, hd, IsErr]
      | some d => simp [h1, h2, hd, IsErr]

theorem newContainer_of_validate_ok {c : Container} (h : c.validate = Except.ok ()) :
    newContainer c = Except.ok c := by
  simp [newContainer, h, selectRuntime]

theorem newContainer_ok_eq {c nc : Container} (h : newContainer c = Except.ok nc) : nc = c := by
  simp only [newContainer] at h
  cases hv : c.validate with
  | error e => rw [hv] at h; simp at h
  | ok u => rw [hv] at h; simp [selectRuntime] at h; exact h.symm

theorem newContainer_isErr_iff (c : Container) : IsErr (newContainer c) ↔ IsErr c.validate := by
  simp only [newContainer]
  cases hv : c.validate with
  | error e => simp [hv, IsErr]
  | ok u => cases u; simp [hv, selectRuntime, IsErr]

/-- C5: `Container.Validate` (and hence `container.New`) fails exactly when
the name is empty, the image is empty, or the Docker runtime entry is
missing; a configuration passing these checks is returned validated and
unchanged (`newContainer` takes no runtime oracle, so it cannot contact a
daemon). -/
theorem containerNew_spec (c : Container) :
    (IsErr (newContainer c) ↔
      (c.config.name = "" ∨ c.config.image = "" ∨ c.runtime.docker = none)) ∧
    (IsErr c.validate ↔
      (c.config.name = "" ∨ c.config.image = "" ∨ c.runtime.docker = none)) ∧
    (¬(c.config.name = "" ∨ c.config.image = "" ∨ c.runtime.docker = none) →
      newContainer c = Except.ok c) := by
  refine ⟨(newContainer_isErr_iff c).trans (validate_isErr_iff c), validate_isErr_iff c, ?_⟩
  intro hgood
  apply newContainer_of_validate_ok
  cases hv : c.validate with
  | error e =>
    exact absurd ((validate_isErr_iff c).mp ⟨e, hv⟩) hgood
  | ok u => cases u; rfl

/-- C5 witness: a complete configuration is validated and returned, and an
empty name is rejected. -/
theorem containerNew_spec_witness :
    newContainer sampleContainer = Except.ok sampleContainer ∧
    IsErr (newContainer { sampleContainer with config := { sampleContainer.config with name := "" } }) :=
  ⟨(containerNew_spec sampleContainer).2.2 (by decide),
   (containerNew_spec { sampleContainer with config := { sampleContainer.config with name := "" } }).1.mpr
     (Or.inl rfl)⟩

/-! ## C9: `Container.Delete` clears the status exactly on success. -/

/-- C9: for a container with a valid instance, a successful runtime delete
clears the stored status to `nil`, and a failing runtime delete surfaces
the error and leaves the container (status included) unchanged. -/
theorem containerDelete_spec (rt : RuntimeOracle) (c : Container) (ci : ContainerInstance)
    (h : c.toInstance = Except.ok ci) :
    (rt.deleteR ci.status.id = Except.ok () →
      (Container.delete rt c).1 = Except.ok () ∧ (Container.delete rt c).2.1.status = none) ∧
    (∀ e, rt.deleteR ci.status.id = Except.error e →
      (Container.delete rt c).1 = Except.error e ∧ (Container.delete rt c).2.1 = c) := by
  constructor
  · intro hd
    simp [Container.delete, h, hd]
  · intro e hd
    simp [Container.delete, h, hd]

/-- C9 witness: deleting the sample container on a healthy daemon clears
its status; on a failing daemon the container is unchanged. -/
theorem containerDelete_spec_witness :
    (Container.delete sampleRuntimeOk sampleContainer).2.1.status = none ∧
    (Container.delete sampleRuntimeDeleteFail sampleContainer).2.1 = sampleContainer := by
  have h : sampleContainer.toInstance = Except.ok sampleInstance := by decide
  exact ⟨((containerDelete_spec sampleRuntimeOk sampleContainer sampleInstance h).1 rfl).2,
    ((containerDelete_spec sampleRuntimeDeleteFail sampleContainer sampleInstance h).2
      "no such container" rfl).2⟩

/-! ## C10: instance-level operations reject a missing or ID-less status
before any runtime call. -/

/-- A container whose stored status is absent or carries no ID. -/
def InvalidStatus (c : Container) : Prop :=
  c.status = none ∨ ∃ s, c.status = some s ∧ s.id = ""

theorem toInstance_isErr_of_invalid {c : Container} (h : InvalidStatus c) :
    IsErr c.toInstance := by
  cases hn : newContainer c with
  | error e => exact ⟨e, by simp [Container.toInstance, hn]⟩
  | ok nc =>
    have hnc : nc = c := newContainer_ok_eq hn
    subst hnc
    rcases h with h | ⟨s, hs, hid⟩
    · exact ⟨"cant create container instance from empty status",
        by simp [Container.toInstance, hn, fromStatus, h]⟩
    · exact ⟨"cant create container instance from status without id",
        by simp [Container.toInstance, hn, fromStatus, hs, hid]⟩

/-- C10: every instance-level operation (`Start`, `Stop`, `Delete`, `Read`,
`Copy`, `Stat`, `UpdateStatus`) on a container whose status is `nil` or
whose status ID is empty returns an error and issues no runtime call. -/
theorem containerOps_guard (rt : RuntimeOracle) (c : Container) (h : InvalidStatus c) :
    (IsErr (Container.start rt c).1 ∧ (Container.start rt c).2.2 = []) ∧
    (IsErr (Container.stop rt c).1 ∧ (Container.stop rt c).2.2 = []) ∧
    (IsErr (Container.delete rt c).1 ∧ (Container.delete rt c).2.2 = []) ∧
    (IsErr (Container.updateStatus rt c).1 ∧ (Container.updateStatus rt c).2.2 = []) ∧
    (∀ p, IsErr (Container.read rt c p).1 ∧ (Container.read rt c p).2 = []) ∧
    (∀ p s, IsErr (Container.copy rt c p s).1 ∧ (Container.copy rt c p s).2 = []) ∧
    (∀ p, IsErr (Container.stat rt c p).1 ∧ (Container.stat rt c p).2 = []) := by
  obtain ⟨e, he⟩ := toInstance_isErr_of_invalid h
  refine ⟨?_, ?_, ?_, ?_, ?_, ?_, ?_⟩ <;>
    simp [Container.start, Container.stop, Container.delete, Container.updateStatus,
      Container.read, Container.copy, Container.stat, he, IsErr]

/-- C10 witness: starting a container with no stored status fails without
any runtime call (likewise for reads). -/
theorem containerOps_guard_witness :
    (IsErr (Container.start sampleRuntimeOk { sampleContainer with status := none }).1 ∧
      (Container.start sampleRuntimeOk { sampleContainer with status := none }).2.2 = []) ∧
    (IsErr (Container.read sampleRuntimeOk { sampleContainer with status := none } "/etc/cfg").1 ∧
      (Container.read sampleRuntimeOk { sampleContainer with status := none } "/etc/cfg").2 = []) := by
  have h := containerOps_guard sampleRuntimeOk { sampleContainer with status := none } (Or.inl rfl)
  exact ⟨h.1, h.2.2.2.2.1 "/etc/cfg"⟩

/-! ## Event-trace lemmas for the etcd membership-update protocol. -/

theorem runRemovals_events (env : EtcdEnv) (ks : List String) :
    ∃ rs : List String, (runRemovals env ks).2 = List.map EtcdEvent.memberRemove rs := by
  induction ks with
  | nil => exact ⟨[], rfl⟩
  | cons k ks ih =>
    obtain ⟨rs, hrs⟩ := ih
    cases hr : env.removeRPC k with
    | error e => exact ⟨[k], by simp [runRemovals, hr]⟩
    | ok u => cases u; exact ⟨k :: rs, by simp [runRemovals, hr, hrs]⟩

theorem runAdditions_events (env : EtcdEnv) (ks : List String) :
    ∃ as2 : List String, (runAdditions env ks).2 = List.map EtcdEvent.memberAdd as2 := by
  induction ks with
  | nil => exact ⟨[], rfl⟩
  | cons k ks ih =>
    obtain ⟨as2, has⟩ := ih
    cases hr : env.addRPC k with
    | error e => exact ⟨[k], by simp [runAdditions, hr]⟩
    | ok u => cases u; exact ⟨k :: as2, by simp [runAdditions, hr, has]⟩

theorem runRemovals_ok_events (env : EtcdEnv) (ks : List String)
    (h : (runRemovals env ks).1 = Except.ok ()) :
    (runRemovals env ks).2 = ks.map EtcdEvent.memberRemove := by
  induction ks with
  | nil => rfl
  | cons k ks ih =>
    cases hr : env.removeRPC k with
    | error e => simp [runRemovals, hr] at h
    | ok u =>
      cases u
      simp only [runRemovals, hr] at h ⊢
      simp [ih h]

theorem runAdditions_ok_events (env : EtcdEnv) (ks : List String)
    (h : (runAdditions env ks).1 = Except.ok ()) :
    (runAdditions env ks).2 = ks.map EtcdEvent.memberAdd := by
  induction ks with
  | nil => rfl
  | cons k ks ih =>
    cases hr : env.addRPC k with
    | error e => simp [runAdditions, hr] at h
    | ok u =>
      cases u
      simp only [runAdditions, hr] at h ⊢
      simp [ih h]

theorem updateMembers_events (env : EtcdEnv) (prev desired : List String) :
    ∃ rs as2 : List String, (updateMembers env prev desired).2
      = List.map EtcdEvent.memberRemove rs ++ List.map EtcdEvent.memberAdd as2 := by
  obtain ⟨rs, hrs⟩ := runRemovals_events env (membersToRemove prev desired)
  obtain ⟨as2, has⟩ := runAdditions_events env (membersToAdd prev desired)
  cases hr : (runRemovals env (membersToRemove prev desired)).1 with
  | error e => exact ⟨rs, [], by simp [updateMembers, hr, hrs]⟩
  | ok u => cases u; exact ⟨rs, as2, by simp [updateMembers, hr, hrs, has]⟩

theorem updateMembers_ok_events (env : EtcdEnv) (prev desired : List String)
    (h : (updateMembers env prev desired).1 = Except.ok ()) :
    (updateMembers env prev desired).2
      = (membersToRemove prev desired).map EtcdEvent.memberRemove
        ++ (membersToAdd prev desired).map EtcdEvent.memberAdd := by
  cases hr : (runRemovals env (membersToRemove prev desired)).1 with
  | error e => simp [updateMembers, hr] at h
  | ok u =>
    cases u
    simp only [updateMembers, hr] at h ⊢
    simp [runRemovals_ok_events env _ hr, runAdditions_ok_events env _ h]

/-! ## Branch equations for `deployCluster`. -/

theorem deployCluster_skip (env : EtcdEnv) (prev desired : List String)
    (hc : ¬(prev.length ≠ 0 ∧ desired.length ≠ 0)) :
    deployCluster env prev desired = (env.containersDeploy, [EtcdEvent.containersDeploy]) := by
  rw [deployCluster, if_neg hc]

theorem deployCluster_clientErr (env : EtcdEnv) (prev desired : List String) (e : Err)
    (hc : prev.length ≠ 0 ∧ desired.length ≠ 0) (hg : env.getClient = Except.error e) :
    deployCluster env prev desired
      = (Except.error ("failed getting etcd client: " ++ e), []) := by
  rw [deployCluster, if_pos hc, hg]

theorem deployCluster_updateErr (env : EtcdEnv) (prev desired : List String) (e : Err)
    (hc : prev.length ≠ 0 ∧ desired.length ≠ 0) (hg : env.getClient = Except.ok ())
    (hu : (updateMembers env prev desired).1 = Except.error e) :
    deployCluster env prev desired
      = (Except.error ("failed to update members before deploying: " ++ e),
        (updateMembers env prev desired).2) := by
  rw [deployCluster, if_pos hc, hg, hu]

theorem deployCluster_ok (env : EtcdEnv) (prev desired : List String)
    (hc : prev.length ≠ 0 ∧ desired.length ≠ 0) (hg : env.getClient = Except.ok ())
    (hu : (updateMembers env prev desired).1 = Except.ok ()) :
    deployCluster env prev desired
      = (env.containersDeploy,
        (updateMembers env prev desired).2 ++ [EtcdEvent.containersDeploy]) := by
  rw [deployCluster, if_pos hc, hg, hu]

theorem nonEmpty_of_cond {prev desired : List String} (hp : prev ≠ []) (hd : desired ≠ []) :
    prev.length ≠ 0 ∧ desired.length ≠ 0 :=
  ⟨fun h => hp (List.length_eq_zero.mp h), fun h => hd (List.length_eq_zero.mp h)⟩

/-! ## C1: `cluster.Deploy` gates membership RPCs and aborts before the
engine on etcd errors. -/

/-- C1: a `cluster.Deploy` pass issues membership RPCs only when both the
previous and the desired state are non-empty; a failure to obtain the etcd
client returns that (wrapped) error with no RPC and no engine call, and a
failing membership RPC returns that (wrapped) error without ever calling
the wrapped engine's `containers.Deploy`. -/
theorem etcdDeploy_gating (env : EtcdEnv) (prev desired : List String) :
    ((∃ k, EtcdEvent.memberRemove k ∈ (deployCluster env prev desired).2 ∨
        EtcdEvent.memberAdd k ∈ (deployCluster env prev desired).2) →
      prev ≠ [] ∧ desired ≠ []) ∧
    (∀ e, env.getClient = Except.error e → prev ≠ [] → desired ≠ [] →
      deployCluster env prev desired
        = (Except.error ("failed getting etcd client: " ++ e), [])) ∧
    (∀ e, env.getClient = Except.ok () →
      (updateMembers env prev desired).1 = Except.error e →
      prev ≠ [] → desired ≠ [] →
      (deployCluster env prev desired).1
          = Except.error ("failed to update members before deploying: " ++ e) ∧
        EtcdEvent.containersDeploy ∉ (deployCluster env prev desired).2) := by
  refine ⟨?_, ?_, ?_⟩
  · intro hk
    by_cases hc : prev.length ≠ 0 ∧ desired.length ≠ 0
    · exact ⟨fun h => hc.1 (by rw [h]; rfl), fun h => hc.2 (by rw [h]; rfl)⟩
    · rw [deployCluster_skip env prev desired hc] at hk
      obtain ⟨k, hk | hk⟩ := hk <;> simp at hk
  · intro e hg hp hd
    exact deployCluster_clientErr env prev desired e (nonEmpty_of_cond hp hd) hg
  · intro e hg hu hp hd
    have hc := nonEmpty_of_cond hp hd
    rw [deployCluster_updateErr env prev desired e hc hg hu]
    obtain ⟨rs, as2, hsh⟩ := updateMembers_events env prev desired
    refine ⟨rfl, ?_⟩
    rw [hsh]
    intro hmem
    rcases List.mem_append.mp hmem with hmem | hmem <;>
      obtain ⟨x, -, hx⟩ := List.mem_map.mp hmem <;> exact EtcdEvent.noConfusion hx

/-- C1 witness: with one existing and one desired member, a client
construction failure aborts the pass with no RPC and no container
operation. -/
theorem etcdDeploy_gating_witness :
    deployCluster sampleEnvClientFail ["a"] ["a"]
      = (Except.error ("failed getting etcd client: " ++ "conn refused"), []) :=
  (etcdDeploy_gating sampleEnvClientFail ["a"] ["a"]).2.1 "conn refused" rfl
    (by decide) (by decide)

/-! ## C2: removals precede additions precede the engine deploy. -/

/-- C2: the trace of one `cluster.Deploy` pass is always some
`MemberRemove` RPCs, then some `MemberAdd` RPCs, then (at most one) call
of the wrapped engine's `containers.Deploy`; and when the pass reaches the
engine with all RPCs succeeding, the removals are exactly the keys leaving
the state and the additions exactly the keys entering it. -/
theorem etcdDeploy_order (env : EtcdEnv) (prev desired : List String) :
    (∃ rs as2 : List String, ∃ tail : List EtcdEvent, (deployCluster env prev desired).2
        = List.map EtcdEvent.memberRemove rs ++ List.map EtcdEvent.memberAdd as2 ++ tail ∧
        (tail = [] ∨ tail = [EtcdEvent.containersDeploy])) ∧
    (prev ≠ [] → desired ≠ [] → env.getClient = Except.ok () →
      (updateMembers env prev desired).1 = Except.ok () →
      (deployCluster env prev desired).2
        = List.map EtcdEvent.memberRemove (membersToRemove prev desired)
          ++ (List.map EtcdEvent.memberAdd (membersToAdd prev desired)
            ++ [EtcdEvent.containersDeploy])) := by
  constructor
  · by_cases hc : prev.length ≠ 0 ∧ desired.length ≠ 0
    · cases hg : env.getClient with
      | error e =>
        exact ⟨[], [], [],
          by rw [deployCluster_clientErr env prev desired e hc hg]; rfl, Or.inl rfl⟩
      | ok u =>
        cases u
        obtain ⟨rs, as2, hsh⟩ := updateMembers_events env prev desired
        cases hu : (updateMembers env prev desired).1 with
        | error e =>
          refine ⟨rs, as2, [], ?_, Or.inl rfl⟩
          rw [deployCluster_updateErr env prev desired e hc hg hu]
          simp [hsh]
        | ok u2 =>
          cases u2
          refine ⟨rs, as2, [EtcdEvent.containersDeploy], ?_, Or.inr rfl⟩
          rw [deployCluster_ok env prev desired hc hg hu, hsh, List.append_assoc]
    · exact ⟨[], [], [EtcdEvent.containersDeploy],
        by rw [deployCluster_skip env prev desired hc]; rfl, Or.inr rfl⟩
  · intro hp hd hg hu
    rw [deployCluster_ok env prev desired (nonEmpty_of_cond hp hd) hg hu,
      updateMembers_ok_events env prev desired hu, List.append_assoc]

/-- C2 witness: replacing member `b` by `c` in a two-member cluster removes
`b`, then adds `c`, then hands over to the engine. -/
theorem etcdDeploy_order_witness :
    (deployCluster sampleEnvOk ["a", "b"] ["a", "c"]).2
      = (membersToRemove ["a", "b"] ["a", "c"]).map EtcdEvent.memberRemove
        ++ ((membersToAdd ["a", "b"] ["a", "c"]).map EtcdEvent.memberAdd
          ++ [EtcdEvent.containersDeploy]) :=
  (etcdDeploy_order sampleEnvOk ["a", "b"] ["a", "c"]).2
    (by decide) (by decide) rfl (by decide)

/-! ## C3: `propagateMember` defaults the member name and the initial
cluster list. -/

theorem pickString_empty_head (rest : List String) : pickString ("" :: rest) = pickString rest := by
  simp [pickString]

theorem pickString_single (x : String) : pickString [x] = x := by
  by_cases h : x = "" <;> simp [pickString, h]

/-- C3: when the member sets no name, `propagateMember` defaults it to
`etcd-<key>`; when it sets no initial cluster, the default is the
comma-joined sorted list of `etcd-<n>=https://<peerAddress>:2380` entries —
a sorted permutation of one entry per configured member, containing in
particular the entry of the member being propagated. -/
theorem propagateMember_spec (c : EtcdCluster) (k : String) (m : EtcdMember) :
    (m.name = "" → (propagateMember c k m).name = "etcd-" ++ k) ∧
    (m.initialCluster = "" →
      (propagateMember c k m).initialCluster
          = String.intercalate "," (sortStrings (c.members.map initialClusterEntry)) ∧
        List.Perm (sortStrings (c.members.map initialClusterEntry))
          (c.members.map initialClusterEntry) ∧
        SortedLe (sortStrings (c.members.map initialClusterEntry)) ∧
        ∀ mm : EtcdMember, (k, mm) ∈ c.members →
          initialClusterEntry (k, mm) ∈ sortStrings (c.members.map initialClusterEntry)) := by
  constructor
  · intro h
    simp only [propagateMember]
    rw [h, pickString_empty_head, pickString_single]
  · intro h
    refine ⟨?_, sortStrings_perm _, sortStrings_sorted _, ?_⟩
    · simp only [propagateMember]
      rw [h, pickString_empty_head, pickString_single]
    · intro mm hmm
      exact (sortStrings_perm _).mem_iff.mpr (List.mem_map_of_mem initialClusterEntry hmm)

/-- C3 witness: in the sample two-member cluster, member `a` (which set no
name and no initial cluster) is defaulted to name `etcd-a` and to the
sorted joined initial-cluster list. -/
theorem propagateMember_spec_witness :
    (propagateMember sampleCluster "a" sampleMember).name = "etcd-" ++ "a" ∧
    (propagateMember sampleCluster "a" sampleMember).initialCluster
      = String.intercalate "," (sortStrings (sampleCluster.members.map initialClusterEntry)) :=
  ⟨(propagateMember_spec sampleCluster "a" sampleMember).1 rfl,
   ((propagateMember_spec sampleCluster "a" sampleMember).2 rfl).1⟩

/-! ## C7: `docker.Read` omits absent paths and fails only on runtime or
TAR errors. -/

theorem dockerRead_ok (parse : String → Except Err DockerFile) (daemon : String → PathResult)
    (paths : List String)
    (h : ∀ p ∈ paths, (∀ e, daemon p ≠ PathResult.rerror e) ∧
      (∀ s, daemon p = PathResult.archive s → ∃ f, parse s = Except.ok f)) :
    ∃ fs : List DockerFile, dockerRead parse daemon paths = Except.ok fs ∧
      List.map DockerFile.path fs
        = paths.filter (fun p => !(decide (daemon p = PathResult.absent))) := by
  induction paths with
  | nil => exact ⟨[], rfl, rfl⟩
  | cons p ps ih =>
    obtain ⟨h1, h2⟩ := h p (List.mem_cons_self p ps)
    obtain ⟨fs, hfs, hmap⟩ := ih (fun q hq => h q (List.mem_cons_of_mem p hq))
    cases hd : daemon p with
    | rerror e => exact absurd hd (h1 e)
    | absent => exact ⟨fs, by simp [dockerRead, hd, hfs], by simp [hd, hmap]⟩
    | archive s =>
      obtain ⟨f, hf⟩ := h2 s hd
      exact ⟨{ f with path := p } :: fs, by simp [dockerRead, hd, hf, hfs],
        by simp [hd, hmap]⟩

theorem dockerRead_error (parse : String → Except Err DockerFile) (daemon : String → PathResult)
    (paths : List String) :
    ∀ e, dockerRead parse daemon paths = Except.error e →
      ∃ p, p ∈ paths ∧ (daemon p = PathResult.rerror e ∨
        ∃ s, daemon p = PathResult.archive s ∧ parse s = Except.error e) := by
  induction paths with
  | nil => intro e he; simp [dockerRead] at he
  | cons p ps ih =>
    intro e he
    cases hd : daemon p with
    | rerror e2 =>
      simp only [dockerRead, hd, Except.error.injEq] at he
      exact ⟨p, List.mem_cons_self p ps, Or.inl (by rw [hd, he])⟩
    | absent =>
      simp only [dockerRead, hd] at he
      obtain ⟨q, hq, hcase⟩ := ih e he
      exact ⟨q, List.mem_cons_of_mem p hq, hcase⟩
    | archive s =>
      cases hp : parse s with
      | error e2 =>
        simp only [dockerRead, hd, hp, Except.error.injEq] at he
        exact ⟨p, List.mem_cons_self p ps, Or.inr ⟨s, hd, by rw [hp, he]⟩⟩
      | ok f =>
        cases hrest : dockerRead parse daemon ps with
        | error e2 =>
          simp only [dockerRead, hd, hp, hrest, Except.error.injEq] at he
          obtain ⟨q, hq, hcase⟩ := ih e (by rw [hrest, he])
          exact ⟨q, List.mem_cons_of_mem p hq, hcase⟩
        | ok fs => simp [dockerRead, hd, hp, hrest] at he

/-- C7: a path the daemon reports as absent is omitted from the result and
causes no error (when no path yields a runtime error or an unparsable
stream, `Read` succeeds and returns exactly one file per present path);
and whenever `Read` fails, some requested path produced a runtime error or
a stream that is not a valid TAR archive. -/
theorem dockerRead_spec (parse : String → Except Err DockerFile) (daemon : String → PathResult)
    (paths : List String) :
    ((∀ p ∈ paths, (∀ e, daemon p ≠ PathResult.rerror e) ∧
        (∀ s, daemon p = PathResult.archive s → ∃ f, parse s = Except.ok f)) →
      ∃ fs : List DockerFile, dockerRead parse daemon paths = Except.ok fs ∧
        List.map DockerFile.path fs
          = paths.filter (fun p => !(decide (daemon p = PathResult.absent)))) ∧
    (∀ e, dockerRead parse daemon paths = Except.error e →
      ∃ p, p ∈ paths ∧ (daemon p = PathResult.rerror e ∨
        ∃ s, daemon p = PathResult.archive s ∧ parse s = Except.error e)) :=
  ⟨dockerRead_ok parse daemon paths, dockerRead_error parse daemon paths⟩

/-- C7 witness: reading `/a` (present) and `/b` (absent) from the sample
daemon succeeds and returns exactly the file at `/a`. -/
theorem dockerRead_spec_witness :
    ∃ fs : List DockerFile, dockerRead sampleParse sampleDaemon ["/a", "/b"] = Except.ok fs ∧
      List.map DockerFile.path fs
        = ["/a", "/b"].filter (fun p => !(decide (sampleDaemon p = PathResult.absent))) := by
  apply (dockerRead_spec sampleParse sampleDaemon ["/a", "/b"]).1
  intro p hp
  have hp2 : p = "/a" ∨ p = "/b" := by simpa using hp
  rcases hp2 with rfl | rfl
  · refine ⟨?_, ?_⟩
    · intro e he
      simp [sampleDaemon] at he
    · intro s hs
      have hs2 : s = "goodtar" := by simpa [sampleDaemon] using hs.symm
      exact ⟨sampleFile, by rw [hs2]; rfl⟩
  · refine ⟨?_, ?_⟩
    · intro e he
      simp [sampleDaemon] at he
    · intro s hs
      simp [sampleDaemon] at hs

end Flexkube
